import Mathlib

/-!
Verification of the transactional overlay engine of the hamsterdb/upscaledb
LocalDatabase facade (src/unnamed/part_000).  The C++ source is shallowly
embedded: transaction operations, per-key operation logs (TransactionNode),
the ordered TransactionIndex, and the LocalDatabase routines
check_insert_conflicts, check_erase_conflicts, insert_txn, erase_txn,
find_txn, flush_txn_operation, finalize, close_impl, create and cursor_erase
are translated into executable Lean functions.  External collaborators
(the B-tree index, the journal, the page manager, cursor sync) are modelled
as abstract inputs or recorded actions, exactly at the call boundary used
by the source file.
-/

set_option autoImplicit false
set_option linter.unusedVariables false

namespace UpscaleDb

/-- ham_status_t, restricted to the codes this file produces or inspects;
`other n` stands for any further status code propagated opaquely. -/
inductive Status where
  | success
  | keyNotFound
  | duplicateKey
  | txnConflict
  | txnStillOpen
  | cursorIsNil
  | invKeySize
  | invRecordSize
  | invParameter
  | other (n : Nat)
deriving DecidableEq, Repr

/-- State of a transaction as observed through is_committed / is_aborted;
`active` is a transaction that is neither. -/
inductive TxnSt where
  | active
  | committed
  | aborted
deriving DecidableEq, Repr

/-- The TransactionOperation flag bits tested by this file:
kIsFlushed, kErase, kInsert, kInsertOverwrite, kInsertDuplicate, kNop,
plus the HAM_PARTIAL bit carried through from the caller flags. -/
structure OpFlags where
  isFlushed : Bool
  erase : Bool
  insert : Bool
  insertOverwrite : Bool
  insertDuplicate : Bool
  nop : Bool
  hamPartial : Bool
deriving DecidableEq, Repr

/-- A TransactionOperation: owning txn id, flag bits, referenced duplicate
index (0 = whole key), record payload and LSN. -/
structure Op where
  txnId : Nat
  flags : OpFlags
  referencedDupe : Nat
  record : List Nat
  lsn : Nat
deriving DecidableEq, Repr

/-- A TransactionNode: the per-key op log, newest op first
(get_newest_op, then get_previous_in_node walks the list). -/
structure TxnNode where
  key : List Nat
  ops : List Op
deriving DecidableEq, Repr

/-- The caller flags of an insert that this file tests:
HAM_OVERWRITE, HAM_DUPLICATE, HAM_PARTIAL. -/
structure InsFlags where
  overwrite : Bool
  duplicate : Bool
  isPartial : Bool
deriving DecidableEq, Repr

/-- The caller flags of an erase that this file tests:
HAM_ERASE_ALL_DUPLICATES. -/
structure EraseFlags where
  eraseAllDuplicates : Bool
deriving DecidableEq, Repr

/-- The database/environment run-time flags tested by the embedded
routines: HAM_RECORD_NUMBER32/64 on the database, HAM_ENABLE_RECOVERY and
HAM_ENABLE_TRANSACTIONS on the environment. -/
structure DbFlags where
  recno32 : Bool
  recno64 : Bool
  enableRecovery : Bool
  enableTransactions : Bool
deriving DecidableEq, Repr

/-- The newest-to-oldest walk of LocalDatabase::check_insert_conflicts.
`none` means the traversal finished without resolution (fall through to
the B-tree); `some st` is an early return. -/
def checkInsertWalk (tstate : Nat → TxnSt) (txn : Nat) (f : InsFlags) :
    List Op → Option Status
  | [] => none
  | op :: rest =>
    if tstate op.txnId = .aborted then
      checkInsertWalk tstate txn f rest
    else if tstate op.txnId = .committed ∨ op.txnId = txn then
      if op.flags.isFlushed then
        checkInsertWalk tstate txn f rest
      else if op.flags.erase then
        some .success
      else if op.flags.insert ∨ op.flags.insertOverwrite ∨ op.flags.insertDuplicate then
        some (if f.overwrite ∨ f.duplicate then .success else .duplicateKey)
      else if ¬ op.flags.nop then
        some .duplicateKey
      else
        checkInsertWalk tstate txn f rest
    else
      some .txnConflict

/-- LocalDatabase::check_insert_conflicts.  `btSt` is the status that
m_btree_index->find(0, key, 0, 0, 0, flags) would return for this key. -/
def check_insert_conflicts (tstate : Nat → TxnSt) (txn : Nat) (ops : List Op)
    (f : InsFlags) (db : DbFlags) (btSt : Status) : Status :=
  match checkInsertWalk tstate txn f ops with
  | some st => st
  | none =>
    if f.overwrite ∨ f.duplicate ∨ db.recno32 ∨ db.recno64 then
      .success
    else
      match btSt with
      | .keyNotFound => .success
      | .success => .duplicateKey
      | st => st

/-- The newest-to-oldest walk of LocalDatabase::check_erase_conflicts. -/
def checkEraseWalk (tstate : Nat → TxnSt) (txn : Nat) : List Op → Option Status
  | [] => none
  | op :: rest =>
    if tstate op.txnId = .aborted then
      checkEraseWalk tstate txn rest
    else if tstate op.txnId = .committed ∨ op.txnId = txn then
      if op.flags.isFlushed then
        checkEraseWalk tstate txn rest
      else if op.flags.erase then
        some .keyNotFound
      else if op.flags.insert ∨ op.flags.insertOverwrite ∨ op.flags.insertDuplicate then
        some .success
      else if ¬ op.flags.nop then
        some .keyNotFound
      else
        checkEraseWalk tstate txn rest
    else
      some .txnConflict

/-- LocalDatabase::check_erase_conflicts: on fall-through the B-tree find
status is the answer. -/
def check_erase_conflicts (tstate : Nat → TxnSt) (txn : Nat) (ops : List Op)
    (btSt : Status) : Status :=
  match checkEraseWalk tstate txn ops with
  | some st => st
  | none => btSt

/-- Modelled from the spec: TransactionIndex (code in 4txn/txn_local, not in
src/) is an ordered map from key to TransactionNode; exact lookup. -/
def idxGet (idx : List TxnNode) (k : List Nat) : Option TxnNode :=
  idx.find? (fun n => n.key = k)

/-- Modelled from the spec: TransactionIndex::remove of the node with the
given key (removes the first matching node). -/
def idxRemove (idx : List TxnNode) (k : List Nat) : List TxnNode :=
  match idx with
  | [] => []
  | n :: t => if n.key = k then t else n :: idxRemove t k

/-- Modelled from the spec: replace the node with the given key (used when
appending an op to an existing node). -/
def idxUpdate (idx : List TxnNode) (k : List Nat) (n : TxnNode) : List TxnNode :=
  match idx with
  | [] => []
  | m :: t => if m.key = k then n :: t else m :: idxUpdate t k n

/-- The op kind chosen by insert_txn:
kInsertDuplicate if HAM_DUPLICATE, else kInsertOverwrite if HAM_OVERWRITE,
else kInsert, with HAM_PARTIAL carried through. -/
def mkInsertOpFlags (f : InsFlags) : OpFlags :=
  { isFlushed := false
    erase := false
    insert := !f.duplicate && !f.overwrite
    insertOverwrite := !f.duplicate && f.overwrite
    insertDuplicate := f.duplicate
    nop := false
    hamPartial := f.isPartial }

/-- The flags of the kErase op appended by erase_txn. -/
def eraseOpFlags : OpFlags :=
  { isFlushed := false, erase := true, insert := false, insertOverwrite := false
    insertDuplicate := false, nop := false, hamPartial := false }

/-- A journal insert record as appended by insert_txn:
append_insert(db, txn, key, record, flags ..., lsn). -/
structure JInsert where
  txnId : Nat
  key : List Nat
  record : List Nat
  overwrite : Bool
  duplicate : Bool
  lsn : Nat
deriving DecidableEq, Repr

/-- A journal erase record as appended by erase_txn:
append_erase(db, txn, key, dupe, flags, lsn). -/
structure JErase where
  txnId : Nat
  key : List Nat
  dupe : Nat
  eraseAllDuplicates : Bool
  lsn : Nat
deriving DecidableEq, Repr

/-- LocalDatabase::insert_txn.  `cursorDupe` is the attached cursor's
dupecache index (`none` when no cursor was supplied); `btSt` is the B-tree
find status consulted by check_insert_conflicts.  Returns the status, the
TransactionIndex after the call, and the journal records appended.
Cursor coupling and increment_dupe_index only mutate cursors and are not
part of this state. -/
def insert_txn (db : DbFlags) (tstate : Nat → TxnSt) (txn : Nat)
    (idx : List TxnNode) (key record : List Nat) (f : InsFlags)
    (cursorDupe : Option Nat) (btSt : Status) (lsn : Nat) :
    Status × List TxnNode × List JInsert :=
  let found := idxGet idx key
  let nodeCreated := found.isNone
  let node := found.getD ⟨key, []⟩
  let idx1 := if nodeCreated then TxnNode.mk key [] :: idx else idx
  let st := check_insert_conflicts tstate txn node.ops f db btSt
  if st ≠ .success then
    (st, if nodeCreated then idxRemove idx1 key else idx1, [])
  else
    let op : Op := ⟨txn, mkInsertOpFlags f, cursorDupe.getD 0, record, lsn⟩
    let idx2 := idxUpdate idx1 key { node with ops := op :: node.ops }
    let jr :=
      if db.enableRecovery && db.enableTransactions then
        [JInsert.mk txn key record (if f.duplicate then f.overwrite else true) f.duplicate lsn]
      else []
    (.success, idx2, jr)

/-- LocalDatabase::erase_txn.  `cursorDupe` is the parent cursor's
dupecache index (`none` when no cursor); the conflict check runs only when
there is no cursor or its dupecache index is 0.  The journal erase record
is appended with dupe argument 0 and flags | HAM_ERASE_ALL_DUPLICATES
(the bit is therefore always set).  nil_all_cursors_in_node and
nil_all_cursors_in_btree only mutate cursors and are not part of this
state. -/
def erase_txn (db : DbFlags) (tstate : Nat → TxnSt) (txn : Nat)
    (idx : List TxnNode) (key : List Nat) (f : EraseFlags)
    (cursorDupe : Option Nat) (btSt : Status) (lsn : Nat) :
    Status × List TxnNode × List JErase :=
  let found := idxGet idx key
  let nodeCreated := found.isNone
  let node := found.getD ⟨key, []⟩
  let idx1 := if nodeCreated then TxnNode.mk key [] :: idx else idx
  let st :=
    if cursorDupe.getD 0 = 0 then check_erase_conflicts tstate txn node.ops btSt
    else .success
  if st ≠ .success then
    (st, if nodeCreated then idxRemove idx1 key else idx1, [])
  else
    let op : Op := ⟨txn, eraseOpFlags, cursorDupe.getD 0, [], lsn⟩
    let idx2 := idxUpdate idx1 key { node with ops := op :: node.ops }
    let jr :=
      if db.enableRecovery && db.enableTransactions then
        [JErase.mk txn key 0 true lsn]
      else []
    (.success, idx2, jr)

/-- Side effects performed by LocalDatabase::finalize, in order. -/
inductive FinAct where
  | clearChangeset
  | abortLocalTxn
  | commitLocalTxn
  | flushChangeset
deriving DecidableEq, Repr

/-- Environment state observed by finalize: the changeset (set of dirtied
pages) and the recovery / transactions flags. -/
structure FinEnv where
  changeset : List Nat
  enableRecovery : Bool
  enableTransactions : Bool
deriving DecidableEq, Repr

/-- LocalDatabase::finalize(status, local_txn).  Returns the status handed
back to the caller, the changeset contents afterwards, and the actions
performed.  changeset->clear() empties the changeset;
changeset->flush(lsn) is recorded as an action (its internal effect is
external to this file). -/
def finalize (env : FinEnv) (status : Status) (localTxn : Bool) :
    Status × List Nat × List FinAct :=
  if status ≠ .success then
    if localTxn then (status, [], [.clearChangeset, .abortLocalTxn])
    else (status, env.changeset, [])
  else if localTxn then
    (.success, [], [.clearChangeset, .commitLocalTxn])
  else if env.enableRecovery && !env.enableTransactions then
    (.success, env.changeset, [.flushChangeset])
  else
    (.success, env.changeset, [])

/-- LocalDatabase::flush_txn_operation.  `btInsertSt` abstracts the status
of the B-tree insert path (including its cursor re-coupling);
`btErase key dupe` is the status of m_btree_index->erase(0, key, dupe,
flags).  The second component records the erase call made, as
(key, referenced_dupe). -/
def flush_txn_operation (btInsertSt : Status) (btErase : List Nat → Nat → Status)
    (nodeKey : List Nat) (op : Op) : Status × Option (List Nat × Nat) :=
  if op.flags.insert ∨ op.flags.insertOverwrite ∨ op.flags.insertDuplicate then
    (btInsertSt, none)
  else if op.flags.erase then
    let st := btErase nodeKey op.referencedDupe
    (if st = .keyNotFound then .success else st, some (nodeKey, op.referencedDupe))
  else
    (.success, none)

/-- The closing actions of LocalDatabase::close_impl, in program order. -/
inductive CloseAct where
  | flushCommittedTxns
  | releaseBtree
  | closeDatabasePages
deriving DecidableEq, Repr

/-- The inner loop of close_impl over one node's ops: true when some op
belongs to a txn that is neither committed nor aborted. -/
def scanOpsActive (tstate : Nat → TxnSt) : List Op → Bool
  | [] => false
  | op :: rest =>
    if tstate op.txnId ≠ .committed ∧ tstate op.txnId ≠ .aborted then true
    else scanOpsActive tstate rest

/-- The outer loop of close_impl over the TransactionIndex nodes. -/
def scanNodesActive (tstate : Nat → TxnSt) : List TxnNode → Bool
  | [] => false
  | n :: rest =>
    if scanOpsActive tstate n.ops then true else scanNodesActive tstate rest

/-- The actions close_impl performs once the active-transaction check has
passed. -/
def closeActions (hasTxnManager hasBtree inMemory : Bool) : List CloseAct :=
  (if hasTxnManager then [CloseAct.flushCommittedTxns] else [])
    ++ (if hasBtree && inMemory then [CloseAct.releaseBtree] else [])
    ++ [CloseAct.closeDatabasePages]

/-- LocalDatabase::close_impl.  `txnIndex` is `none` when m_txn_index is
null.  Returns the status and the closing actions performed. -/
def close_impl (tstate : Nat → TxnSt) (txnIndex : Option (List TxnNode))
    (hasTxnManager hasBtree inMemory : Bool) : Status × List CloseAct :=
  match txnIndex with
  | some nodes =>
    if scanNodesActive tstate nodes then (.txnStillOpen, [])
    else (.success, closeActions hasTxnManager hasBtree inMemory)
  | none => (.success, closeActions hasTxnManager hasBtree inMemory)

/-- HAM_KEY_SIZE_UNLIMITED. -/
def keySizeUnlimited : Nat := 65535

/-- HAM_RECORD_SIZE_UNLIMITED. -/
def recordSizeUnlimited : Nat := 4294967295

/-- The key types of the create-time switch. -/
inductive KeyType where
  | uint8
  | uint16
  | uint32
  | uint64
  | real32
  | real64
  | custom
deriving DecidableEq, Repr

/-- The persistent flag bits handled by LocalDatabase::create: the
session flags stripped off, plus HAM_FORCE_RECORDS_INLINE and the
record-number bits. -/
structure PersistentFlags where
  cacheUnlimited : Bool
  disableMmap : Bool
  enableFsync : Bool
  readOnly : Bool
  enableRecovery : Bool
  autoRecovery : Bool
  enableTransactions : Bool
  forceRecordsInline : Bool
deriving DecidableEq, Repr

/-- The database configuration consumed by create. -/
structure DbConfig where
  keyType : KeyType
  keySize : Nat
  recordSize : Nat
deriving DecidableEq, Repr

/-- The key-size adjustment switch at the top of create: fixed-width
numeric types force key_size to 1/2/4/8. -/
def adjustedKeySize (t : KeyType) (s : Nat) : Nat :=
  match t with
  | .uint8 => 1
  | .uint16 => 2
  | .uint32 => 4
  | .real32 => 4
  | .uint64 => 8
  | .real64 => 8
  | .custom => s

/-- LocalDatabase::create.  `threshold` is kInlineRecordThreshold, a
constant declared in db_local.h (outside this source file; the spec names
it without a value).  Returns the status and the persistent flags handed
to the BtreeIndex. -/
def create (cfg : DbConfig) (rt : PersistentFlags) (pageSize threshold : Nat) :
    Status × PersistentFlags :=
  let pf0 := { rt with
                cacheUnlimited := false
                disableMmap := false
                enableFsync := false
                readOnly := false
                enableRecovery := false
                autoRecovery := false
                enableTransactions := false }
  let ks := adjustedKeySize cfg.keyType cfg.keySize
  if ks ≠ keySizeUnlimited ∧ pageSize / (ks + 8) < 10 then
    (.invKeySize, pf0)
  else
    let inlineRecs := cfg.recordSize ≠ recordSizeUnlimited ∧
      (cfg.recordSize ≤ 8 ∨
        (cfg.recordSize ≤ threshold ∧ pageSize / (ks + cfg.recordSize) > 500))
    (.success, { pf0 with forceRecordsInline := pf0.forceRecordsInline || inlineRecs })

/-- Cursor coupling state: nil, coupled to a txn op (with its node key),
or coupled to a B-tree slot. -/
inductive CursorSt where
  | nil
  | txnOp (op : Op) (nodeKey : List Nat)
  | btree
deriving DecidableEq, Repr

/-- LocalDatabase::cursor_erase over an abstract database state `α`:
if the cursor is nil the call throws HAM_CURSOR_IS_NIL without resolving
a key or invoking erase_impl; otherwise it delegates to erase_impl with
the coupled op's node key (txn side) or a null key (btree side). -/
def cursor_erase {α : Type} (eraseImpl : Option (List Nat) → Status × α)
    (c : CursorSt) (db : α) : Status × α :=
  match c with
  | .nil => (.cursorIsNil, db)
  | .txnOp _ k => eraseImpl (some k)
  | .btree => eraseImpl none

/-- The find flag bits tested by find_txn: HAM_FIND_EXACT_MATCH,
HAM_FIND_LT_MATCH, HAM_FIND_GT_MATCH. -/
structure FindFlags where
  exact : Bool
  lt : Bool
  gt : Bool
deriving DecidableEq, Repr

/-- The outcome of one m_btree_index->find call: its status and, on
success, the key it placed in the caller's key (with its kApproximate
intflag) and the record it produced. -/
structure BtreeFindRes where
  status : Status
  key : List Nat
  approx : Bool
  record : List Nat
deriving DecidableEq, Repr

/-- The B-tree interface consumed by find_txn: find and compare_keys. -/
structure Btree where
  find : List Nat → FindFlags → BtreeFindRes
  compare : List Nat → List Nat → Int

/-- The environment of one find_txn call: the TransactionIndex contents in
key order (siblings are adjacent entries), the transaction states, the
B-tree, and the observable outcome of the cursor->sync call made in the
referenced_dupe = 1 branch (is_equal and the dupecache count
afterwards). -/
structure FindEnv where
  nodes : List TxnNode
  tstate : Nat → TxnSt
  bt : Btree
  syncIsEqual : Bool
  syncDupeCount : Nat

/-- Modelled from the spec: TransactionIndex lookup of the node for the
given key, no creation (the TransactionIndex code is in 4txn/txn_local,
not in src/).  Returns the position in key order. -/
def getNodeIdx (nodes : List TxnNode) (k : List Nat) : Option Nat :=
  nodes.findIdx? (fun n => n.key = k)

/-- Ops of the node at position i (node->get_newest_op and the
previous_in_node chain). -/
def nodeOpsAt (env : FindEnv) (i : Nat) : List Op :=
  match env.nodes.get? i with
  | some n => n.ops
  | none => []

/-- Key of the node at position i. -/
def nodeKeyAt (env : FindEnv) (i : Nat) : List Nat :=
  match env.nodes.get? i with
  | some n => n.key
  | none => []

/-- cursor->set_to_nil(Cursor::kBtree). -/
def nilBtreeSide : CursorSt → CursorSt
  | .btree => .nil
  | c => c

/-- How the newest-to-oldest overlay walk of find_txn terminates.
The walk starts at the looked-up node and may hop to a sibling on a
visible erase when HAM_FIND_LT_MATCH / HAM_FIND_GT_MATCH is set
(the goto retry loop). -/
inductive WalkRes where
  /-- walk fuel exhausted; never arises with enough fuel. -/
  | fuelOut
  /-- an op of a still-active foreign txn was hit. -/
  | conflict (approx : Bool)
  /-- the defensive branch for an op with no recognised kind bit. -/
  | assertNotFound (approx : Bool)
  /-- a visible kErase op was reached and neither LT nor GT is set. -/
  | eraseExact (op : Op) (approx : Bool)
  /-- a visible kInsert* op was reached with the key not flagged
  approximate: the record is returned directly. -/
  | insertHit (op : Op) (nodeKey : List Nat)
  /-- control reaches the code after the while loop: op is null, or the
  walk broke out (insert with approximate key, or erase with no further
  sibling).  Carries the op and its node key when op is non-null, the
  cursor after the walk, the key's kApproximate intflag, and
  exact_is_erased. -/
  | postWalk (found : Option (Op × List Nat)) (cur : CursorSt)
      (approx : Bool) (exactErased : Bool)
deriving DecidableEq, Repr

/-- The while loop of find_txn over one node's ops, including the goto
retry hops to sibling nodes for LT/GT matches.  `cur` is the cursor at
entry (the walk couples it on a visible insert).  The fuel decreases on
every step; call sites pass at least the total number of ops plus
nodes. -/
def walkOps (env : FindEnv) (txn : Nat) (flags : FindFlags) (cur : CursorSt) :
    Nat → Nat → List Op → Bool → Bool → Bool → WalkRes
  | 0, _, _, _, _, _ => .fuelOut
  | _ + 1, _, [], approx, _, exactErased => .postWalk none cur approx exactErased
  | fuel + 1, i, op :: rest, approx, firstLoop, exactErased =>
    if env.tstate op.txnId = .aborted then
      walkOps env txn flags cur fuel i rest approx firstLoop exactErased
    else if env.tstate op.txnId = .committed ∨ op.txnId = txn then
      if op.flags.isFlushed then
        walkOps env txn flags cur fuel i rest approx firstLoop exactErased
      else if op.flags.erase then
        let exactErased' := if firstLoop ∧ ¬ approx then true else exactErased
        if flags.lt then
          if i = 0 then
            .postWalk (some (op, nodeKeyAt env i)) cur approx exactErased'
          else
            walkOps env txn flags cur fuel (i - 1) (nodeOpsAt env (i - 1))
              true false exactErased'
        else if flags.gt then
          if i + 1 < env.nodes.length then
            walkOps env txn flags cur fuel (i + 1) (nodeOpsAt env (i + 1))
              true false exactErased'
          else
            .postWalk (some (op, nodeKeyAt env i)) cur approx exactErased'
        else
          .eraseExact op approx
      else if op.flags.insert ∨ op.flags.insertOverwrite ∨ op.flags.insertDuplicate then
        if approx then
          .postWalk (some (op, nodeKeyAt env i)) (.txnOp op (nodeKeyAt env i))
            true exactErased
        else
          .insertHit op (nodeKeyAt env i)
      else if ¬ op.flags.nop then
        .assertNotFound approx
      else
        walkOps env txn flags cur fuel i rest approx firstLoop exactErased
    else
      .conflict approx

/-- The whole overlay walk of find_txn: look up the node (no creation)
and walk its ops newest to oldest; with no node, control reaches the
post-loop code with op null. -/
def findTxnWalk (env : FindEnv) (fuel txn : Nat) (key : List Nat)
    (flags : FindFlags) (cur : CursorSt) : WalkRes :=
  match getNodeIdx env.nodes key with
  | none => .postWalk none cur false false
  | some i => walkOps env txn flags cur fuel i (nodeOpsAt env i) false true false

/-- The result of a find_txn call: status, the caller's key afterwards
(bytes and kApproximate intflag), the record produced (`none` when the
record buffer was not written), and the cursor afterwards. -/
structure FindResult where
  status : Status
  key : List Nat
  approx : Bool
  record : Option (List Nat)
  cursor : CursorSt
deriving DecidableEq, Repr

/-- Result used when the walk fuel runs out; never arises with enough
fuel. -/
def fuelOutRes : FindResult :=
  ⟨.other 999, [], false, none, .nil⟩

/-- The exact-match erase handling of find_txn (a visible kErase op,
neither LT nor GT set).  The stray merge-conflict marker in the source
sits in this branch; following the structurally coherent alternative
(the one with the single trailing couple-on-success, the resolution the
spec declares authoritative), the cursor is coupled to the op only when
the status is success: referenced_dupe > 1 means other duplicates remain
(success); = 1 re-checks via cursor->sync whether duplicates survive;
= 0 returns KeyNotFound with no coupling. -/
def eraseExactRes (env : FindEnv) (cur : CursorSt) (key : List Nat)
    (a : Bool) (op : Op) : FindResult :=
  if op.referencedDupe > 1 then
    ⟨.success, key, a, none, .txnOp op key⟩
  else if op.referencedDupe = 1 then
    let cur1 := if !env.syncIsEqual then nilBtreeSide cur else cur
    if env.syncDupeCount ≠ 0 then
      ⟨.success, key, a, none, .txnOp op key⟩
    else
      ⟨.keyNotFound, key, a, none, cur1⟩
  else
    ⟨.keyNotFound, key, a, none, cur⟩

/-- The final branch of find_txn with no approximate overlay candidate:
delegate the whole query to m_btree_index->find. -/
def delegateBtree (env : FindEnv) (cur : CursorSt) (key : List Nat)
    (flags : FindFlags) (wantRecord : Bool) (a : Bool) : FindResult :=
  let br := env.bt.find key flags
  if br.status = .success then
    ⟨.success, br.key, br.approx, if wantRecord then some br.record else none, cur⟩
  else
    ⟨br.status, key, a, none, cur⟩

/-- flags minus HAM_FIND_EXACT_MATCH when the exact key was erased. -/
def stripExact (flags : FindFlags) (exactErased : Bool) : FindFlags :=
  if exactErased then { flags with exact := false } else flags

/-- The post-walk merge of find_txn (the walk ended on a visible op and
the key is flagged approximate): snapshot the overlay candidate key,
consult the B-tree, and choose a side.  `recurse` is the re-entry of
find_txn used to validate a chosen B-tree key against live erases. -/
def postWalkMerge (env : FindEnv)
    (recurse : CursorSt → List Nat → FindFlags → FindResult)
    (cur : CursorSt) (key : List Nat) (flags : FindFlags) (wantRecord : Bool)
    (op : Op) (txnkey : List Nat) (exactErased : Bool) : FindResult :=
  let flags1 := stripExact flags exactErased
  let cur1 := nilBtreeSide cur
  let br := env.bt.find key flags1
  if br.status = .keyNotFound then
    ⟨.success, txnkey, true, if wantRecord then some op.record else none,
      .txnOp op txnkey⟩
  else if br.status ≠ .success then
    ⟨br.status, key, false, none, cur1⟩
  else if !br.approx && flags1.exact then
    ⟨.success, br.key, br.approx, if wantRecord then some br.record else none,
      .btree⟩
  else
    let cmp := env.bt.compare br.key txnkey
    let useBtree :=
      if flags1.gt then decide (cmp < 0)
      else if flags1.lt then decide (cmp > 0)
      else false
    if useBtree then
      let r := recurse cur1 br.key { flags1 with exact := true }
      if r.status = .success then { r with approx := true } else r
    else
      ⟨.success, txnkey, true, if wantRecord then some op.record else none,
        .txnOp op txnkey⟩

/-- LocalDatabase::find_txn.  `wantRecord` is whether a record buffer was
supplied.  The fuel bounds the walk steps and the recursion depth of the
approximate-match re-entry. -/
def find_txn (env : FindEnv) : Nat → Nat → CursorSt → List Nat → FindFlags →
    Bool → FindResult
  | 0, _, _, _, _, _ => fuelOutRes
  | fuel + 1, txn, cur, key, flags, wantRecord =>
    match findTxnWalk env (fuel + 1) txn key flags cur with
    | .fuelOut => fuelOutRes
    | .conflict a => ⟨.txnConflict, key, a, none, cur⟩
    | .assertNotFound a => ⟨.keyNotFound, key, a, none, cur⟩
    | .eraseExact op a => eraseExactRes env cur key a op
    | .insertHit op nodeKey =>
      ⟨.success, key, false, if wantRecord then some op.record else none,
        .txnOp op nodeKey⟩
    | .postWalk none curW a _ => delegateBtree env curW key flags wantRecord a
    | .postWalk (some (op, txnkey)) curW a exactErased =>
      if a then
        postWalkMerge env (fun c k fl => find_txn env fuel txn c k fl wantRecord)
          curW key flags wantRecord op txnkey exactErased
      else
        delegateBtree env curW key flags wantRecord a

/-! Concrete fixtures used by the witnesses below. -/

/-- An everything-committed transaction state. -/
def allCommitted : Nat → TxnSt := fun _ => .committed

/-- Transaction state where txn 2 is still active and all others are
committed. -/
def tstateOneActive : Nat → TxnSt := fun t => if t = 2 then .active else .committed

/-- Transaction state where txn 9 is aborted and all others committed. -/
def tstateOneAborted : Nat → TxnSt := fun t => if t = 9 then .aborted else .committed

/-- An op of the still-active txn 2. -/
def opOfActiveTxn : Op := ⟨2, mkInsertOpFlags ⟨false, false, false⟩, 0, [1], 1⟩

/-- A one-node index whose only op belongs to the active txn 2. -/
def idxOneActive : List TxnNode := [⟨[3], [opOfActiveTxn]⟩]

/-- An op list whose walk falls through: an op of the aborted txn 9
followed by a flushed op. -/
def opsFallThrough : List Op :=
  [⟨9, mkInsertOpFlags ⟨false, false, false⟩, 0, [], 1⟩,
   ⟨1, { isFlushed := true, erase := true, insert := false, insertOverwrite := false,
         insertDuplicate := false, nop := false, hamPartial := false }, 0, [], 2⟩]

/-- A B-tree whose find always succeeds approximately with key [3] and
whose comparator always answers 1. -/
def btAlwaysGt : Btree := ⟨fun _ _ => ⟨.success, [3], true, [9]⟩, fun _ _ => 1⟩

/-- A committed erase op on the whole key. -/
def eraseOpWhole : Op := ⟨4, eraseOpFlags, 0, [], 1⟩

/-- A committed plain insert op with record [8]. -/
def insOpPlain : Op := ⟨4, mkInsertOpFlags ⟨false, false, false⟩, 0, [8], 2⟩

/-- Environment for the C1 witness: key [1] is erased, its successor [2]
holds an insert, everything committed. -/
def envMerge : FindEnv :=
  ⟨[⟨[1], [eraseOpWhole]⟩, ⟨[2], [insOpPlain]⟩], allCommitted, btAlwaysGt, true, 0⟩

/-- Environment for the C3 witness: key [1] carries a single whole-key
erase op, everything committed. -/
def envEraseExact : FindEnv :=
  ⟨[⟨[1], [eraseOpWhole]⟩], allCommitted, btAlwaysGt, true, 0⟩

/-- A B-tree-erase stub answering KeyNotFound. -/
def btEraseNotFound : List Nat → Nat → Status := fun _ _ => .keyNotFound

/-- A flushable erase op referencing duplicate 3. -/
def opEraseDupe3 : Op := ⟨2, eraseOpFlags, 3, [], 4⟩

/-! Theorems settling the claims. -/

/-- Helper for C8: if some op in the list belongs to a transaction that is
neither committed nor aborted, the inner close_impl scan answers true. -/
theorem scanOpsActive_of_mem (tstate : Nat → TxnSt) (ops : List Op) (op : Op)
    (hm : op ∈ ops)
    (ha : tstate op.txnId ≠ .committed ∧ tstate op.txnId ≠ .aborted) :
    scanOpsActive tstate ops = true := by
  induction ops with
  | nil => cases hm
  | cons hd tl ih =>
    rcases List.mem_cons.mp hm with h | h
    · subst h
      unfold scanOpsActive
      simp [ha]
    · unfold scanOpsActive
      split
      · rfl
      · exact ih h

/-- Helper for C8: if some node holds such an op, the outer scan answers
true. -/
theorem scanNodesActive_of_mem (tstate : Nat → TxnSt) (nodes : List TxnNode)
    (n : TxnNode) (op : Op) (hn : n ∈ nodes) (hm : op ∈ n.ops)
    (ha : tstate op.txnId ≠ .committed ∧ tstate op.txnId ≠ .aborted) :
    scanNodesActive tstate nodes = true := by
  induction nodes with
  | nil => cases hn
  | cons hd tl ih =>
    rcases List.mem_cons.mp hn with h | h
    · unfold scanNodesActive
      have hops : scanOpsActive tstate hd.ops = true := by
        rw [← h]
        exact scanOpsActive_of_mem tstate n.ops op hm ha
      rw [hops]
      simp
    · unfold scanNodesActive
      split
      · rfl
      · exact ih h

/-- C2: when the newest-to-oldest walk of check_insert_conflicts finishes
without resolution, the B-tree is consulted only when neither Overwrite
nor Duplicate is set and the database is not a record-number database
(otherwise the result is success for every possible B-tree status); when
consulted, a B-tree hit yields DuplicateKey, KeyNotFound yields success,
and any other status is returned unchanged. -/
theorem claim2_insert_conflicts_btree (tstate : Nat → TxnSt) (txn : Nat)
    (ops : List Op) (f : InsFlags) (db : DbFlags) (btSt : Status)
    (hwalk : checkInsertWalk tstate txn f ops = none) :
    ((f.overwrite = true ∨ f.duplicate = true ∨ db.recno32 = true ∨ db.recno64 = true) →
      ∀ b : Status, check_insert_conflicts tstate txn ops f db b = .success)
    ∧ (f.overwrite = false → f.duplicate = false → db.recno32 = false →
        db.recno64 = false →
        check_insert_conflicts tstate txn ops f db btSt =
          match btSt with
          | .keyNotFound => .success
          | .success => .duplicateKey
          | st => st) := by
  constructor
  · intro h b
    unfold check_insert_conflicts
    rw [hwalk]
    rcases h with h | h | h | h <;> simp [h]
  · intro h1 h2 h3 h4
    unfold check_insert_conflicts
    rw [hwalk]
    simp [h1, h2, h3, h4]

/-- Witness for C2 at a concrete fall-through op list: with Overwrite set
the result is success even for an opaque B-tree status, without any of
the bits the opaque status is returned unchanged. -/
theorem claim2_witness :
    check_insert_conflicts tstateOneAborted 1 opsFallThrough
        ⟨true, false, false⟩ ⟨false, false, false, false⟩ (.other 5) = .success
    ∧ check_insert_conflicts tstateOneAborted 1 opsFallThrough
        ⟨false, false, false⟩ ⟨false, false, false, false⟩ (.other 5) = .other 5 := by
  constructor
  · exact (claim2_insert_conflicts_btree tstateOneAborted 1 opsFallThrough
      ⟨true, false, false⟩ ⟨false, false, false, false⟩ (.other 5) (by decide)).1
      (Or.inl rfl) (.other 5)
  · exact (claim2_insert_conflicts_btree tstateOneAborted 1 opsFallThrough
      ⟨false, false, false⟩ ⟨false, false, false, false⟩ (.other 5) (by decide)).2
      rfl rfl rfl rfl

/-- C4: on every error return of insert_txn and of erase_txn the
TransactionIndex is unchanged from its state at entry: a freshly created
node is removed again before the error propagates, and a pre-existing
node is left in place. -/
theorem claim4_index_restored (db : DbFlags) (tstate : Nat → TxnSt) (txn : Nat)
    (idx : List TxnNode) (key rcd : List Nat) (fi : InsFlags) (fe : EraseFlags)
    (cdIns cdErase : Option Nat) (btSt1 btSt2 : Status) (lsn1 lsn2 : Nat) :
    ((insert_txn db tstate txn idx key rcd fi cdIns btSt1 lsn1).1 ≠ .success →
      (insert_txn db tstate txn idx key rcd fi cdIns btSt1 lsn1).2.1 = idx)
    ∧ ((erase_txn db tstate txn idx key fe cdErase btSt2 lsn2).1 ≠ .success →
      (erase_txn db tstate txn idx key fe cdErase btSt2 lsn2).2.1 = idx) := by
  constructor
  · intro h
    unfold insert_txn at h ⊢
    cases hg : idxGet idx key <;>
      simp only [hg, Option.isNone_none, Option.isNone_some, if_true, if_false,
        Option.getD_some, Option.getD_none] at h ⊢ <;>
      split_ifs at h ⊢ with hst <;>
      simp_all [idxRemove]
  · intro h
    unfold erase_txn at h ⊢
    cases hg : idxGet idx key <;>
      simp only [hg, Option.isNone_none, Option.isNone_some, if_true, if_false,
        Option.getD_some, Option.getD_none] at h ⊢ <;>
      split_ifs at h ⊢ with hst <;>
      simp_all [idxRemove]

/-- Witness for C4: against an index whose only op belongs to a
still-active foreign transaction, both insert_txn and erase_txn fail and
leave the index unchanged. -/
theorem claim4_witness :
    (insert_txn ⟨false, false, false, false⟩ tstateOneActive 1 idxOneActive [3] [9]
        ⟨false, false, false⟩ none .success 5).2.1 = idxOneActive
    ∧ (erase_txn ⟨false, false, false, false⟩ tstateOneActive 1 idxOneActive [3]
        ⟨false⟩ none .success 5).2.1 = idxOneActive := by
  constructor
  · exact (claim4_index_restored ⟨false, false, false, false⟩ tstateOneActive 1
      idxOneActive [3] [9] ⟨false, false, false⟩ ⟨false⟩ none none .success .success
      5 5).1 (by decide)
  · exact (claim4_index_restored ⟨false, false, false, false⟩ tstateOneActive 1
      idxOneActive [3] [9] ⟨false, false, false⟩ ⟨false⟩ none none .success .success
      5 5).2 (by decide)

/-- Counterexample to C5: finalize invoked with a failure status and no
temporary transaction performs no action at all: the changeset is left
as it was (here non-empty) and nothing is flushed, even with recovery
enabled. -/
theorem claim5_counterexample :
    finalize ⟨[7], true, true⟩ .keyNotFound false = (.keyNotFound, [7], [])
    ∧ ([7] : List Nat) ≠ [] := by decide

/-- C5 as amended: on a failure exit with no temporary transaction,
finalize returns the status unchanged and performs no changeset action
(no clear and no flush), regardless of the recovery flag. -/
theorem claim5_amended (env : FinEnv) (status : Status) (h : status ≠ .success) :
    finalize env status false = (status, env.changeset, []) := by
  unfold finalize
  simp [h]

/-- Witness for the amended C5. -/
theorem claim5_witness :
    finalize ⟨[1, 2], true, false⟩ .txnConflict false = (.txnConflict, [1, 2], []) :=
  claim5_amended ⟨[1, 2], true, false⟩ .txnConflict (by decide)

/-- Counterexample to C6: an erase_txn initiated by a cursor that targets
duplicate 2 (the op records referenced_dupe = 2) still appends a journal
erase record with the EraseAllDuplicates bit set. -/
theorem claim6_counterexample :
    erase_txn ⟨false, false, true, true⟩ allCommitted 1 [] [5] ⟨false⟩
        (some 2) .success 10 =
      (.success, [⟨[5], [⟨1, eraseOpFlags, 2, [], 10⟩]⟩], [⟨1, [5], 0, true, 10⟩]) := by
  decide

/-- C6 as amended: every successful erase_txn with recovery and
transactions enabled appends exactly one journal erase record, and that
record always carries the EraseAllDuplicates flag (the source ORs the
flag in unconditionally), whether or not a specific duplicate was
targeted. -/
theorem claim6_amended (db : DbFlags) (tstate : Nat → TxnSt) (txn : Nat)
    (idx : List TxnNode) (key : List Nat) (f : EraseFlags) (cd : Option Nat)
    (btSt : Status) (lsn : Nat)
    (hr : db.enableRecovery = true) (ht : db.enableTransactions = true)
    (hs : (erase_txn db tstate txn idx key f cd btSt lsn).1 = .success) :
    (erase_txn db tstate txn idx key f cd btSt lsn).2.2 = [⟨txn, key, 0, true, lsn⟩] := by
  simp only [erase_txn] at hs ⊢
  split_ifs at hs ⊢ with h1 h2 h3 h4 <;> simp_all [hr, ht]

/-- Witness for the amended C6. -/
theorem claim6_witness :
    (erase_txn ⟨false, false, true, true⟩ allCommitted 3 [] [6] ⟨true⟩ none
        .success 11).2.2 = [⟨3, [6], 0, true, 11⟩] :=
  claim6_amended ⟨false, false, true, true⟩ allCommitted 3 [] [6] ⟨true⟩ none
    .success 11 rfl rfl (by decide)

/-- C7: for an op of kind Erase, flush_txn_operation invokes the B-tree
erase with the op's referenced duplicate index, converts a KeyNotFound
answer to success, and therefore never itself returns KeyNotFound. -/
theorem claim7_flush_erase (btInsertSt : Status) (btErase : List Nat → Nat → Status)
    (nodeKey : List Nat) (op : Op)
    (he : op.flags.erase = true) (h1 : op.flags.insert = false)
    (h2 : op.flags.insertOverwrite = false) (h3 : op.flags.insertDuplicate = false) :
    flush_txn_operation btInsertSt btErase nodeKey op =
      ((if btErase nodeKey op.referencedDupe = .keyNotFound then .success
        else btErase nodeKey op.referencedDupe), some (nodeKey, op.referencedDupe))
    ∧ (flush_txn_operation btInsertSt btErase nodeKey op).1 ≠ .keyNotFound := by
  unfold flush_txn_operation
  simp only [he, h1, h2, h3]
  constructor
  · simp
  · simp only [Bool.false_eq_true, or_self, if_false, if_true]
    split <;> simp_all

/-- Witness for C7 at a concrete erase op whose B-tree erase answers
KeyNotFound. -/
theorem claim7_witness :
    flush_txn_operation .success btEraseNotFound [4] opEraseDupe3 =
      ((if btEraseNotFound [4] opEraseDupe3.referencedDupe = .keyNotFound then .success
        else btEraseNotFound [4] opEraseDupe3.referencedDupe),
       some ([4], opEraseDupe3.referencedDupe))
    ∧ (flush_txn_operation .success btEraseNotFound [4] opEraseDupe3).1 ≠ .keyNotFound :=
  claim7_flush_erase .success btEraseNotFound [4] opEraseDupe3 rfl rfl rfl rfl

/-- C8: if some op in the TransactionIndex belongs to a transaction that
is neither committed nor aborted, close_impl returns TxnStillOpen and
performs none of the closing actions (no flush of committed transactions,
no B-tree release, no closing of pages). -/
theorem claim8_close_guard (tstate : Nat → TxnSt) (nodes : List TxnNode)
    (hasTM hasBt inMem : Bool)
    (h : ∃ n ∈ nodes, ∃ op ∈ n.ops,
      tstate op.txnId ≠ .committed ∧ tstate op.txnId ≠ .aborted) :
    close_impl tstate (some nodes) hasTM hasBt inMem = (.txnStillOpen, []) := by
  rcases h with ⟨n, hn, op, hm, ha⟩
  have hscan := scanNodesActive_of_mem tstate nodes n op hn hm ha
  simp [close_impl, hscan]

/-- Witness for C8. -/
theorem claim8_witness :
    close_impl tstateOneActive (some idxOneActive) true true false = (.txnStillOpen, []) :=
  claim8_close_guard tstateOneActive idxOneActive true true false (by decide)

/-- Counterexample to C9: with key size 91, record size 9, page size
50000 and kInlineRecordThreshold 32, the page holds exactly 500
key+record pairs; the claim's condition (at least 500 pairs) holds, yet
create does not set ForceRecordsInline, because the source requires
strictly more than 500 pairs. -/
theorem claim9_counterexample :
    (create ⟨.custom, 91, 9⟩ ⟨false, false, false, false, false, false, false, false⟩
        50000 32).1 = .success
    ∧ (create ⟨.custom, 91, 9⟩ ⟨false, false, false, false, false, false, false, false⟩
        50000 32).2.forceRecordsInline = false
    ∧ (9 ≤ 8 ∨ (9 ≤ 32 ∧ 50000 / (91 + 9) ≥ 500)) := by decide

/-- C9 as amended: for a successful create with a fixed record size and
ForceRecordsInline not already set at entry, the flag ends up set in the
persistent flags if and only if the record size is at most 8 bytes, or it
is at most kInlineRecordThreshold and the page holds strictly more than
500 key+record pairs. -/
theorem claim9_amended (cfg : DbConfig) (rt : PersistentFlags)
    (pageSize threshold : Nat)
    (h0 : rt.forceRecordsInline = false)
    (h1 : cfg.recordSize ≠ recordSizeUnlimited)
    (h2 : (create cfg rt pageSize threshold).1 = .success) :
    ((create cfg rt pageSize threshold).2.forceRecordsInline = true ↔
      (cfg.recordSize ≤ 8 ∨ (cfg.recordSize ≤ threshold ∧
        pageSize / (adjustedKeySize cfg.keyType cfg.keySize + cfg.recordSize) > 500))) := by
  simp only [create] at h2 ⊢
  split_ifs at h2 ⊢ with hks <;> simp_all [h0, h1]

/-- Witness for the amended C9: at 506 pairs the flag is set. -/
theorem claim9_witness :
    (create ⟨.custom, 91, 9⟩ ⟨false, false, false, false, false, false, false, false⟩
        50600 32).1 = .success
    ∧ ((create ⟨.custom, 91, 9⟩ ⟨false, false, false, false, false, false, false, false⟩
        50600 32).2.forceRecordsInline = true ↔
      (9 ≤ 8 ∨ (9 ≤ 32 ∧ 50600 / (adjustedKeySize .custom 91 + 9) > 500))) := by
  refine ⟨by decide, ?_⟩
  exact claim9_amended ⟨.custom, 91, 9⟩ ⟨false, false, false, false, false, false, false, false⟩
    50600 32 rfl (by decide) (by decide)

/-- C3: an exact-match find_txn call (neither LtMatch nor GtMatch) whose
overlay walk reaches a visible Erase op with referenced_dupe = 0 returns
KeyNotFound and leaves the supplied cursor exactly as it was at entry:
in particular it is not coupled to the erase op. -/
theorem claim3_erase_exact_dupe0 (env : FindEnv) (n txn : Nat) (cur : CursorSt)
    (key : List Nat) (flags : FindFlags) (wantRecord : Bool) (op : Op)
    (hex : flags.lt = false ∧ flags.gt = false)
    (hwalk : findTxnWalk env (n + 1) txn key flags cur = .eraseExact op false)
    (hdupe : op.referencedDupe = 0) :
    find_txn env (n + 1) txn cur key flags wantRecord =
      ⟨.keyNotFound, key, false, none, cur⟩ := by
  unfold find_txn
  rw [hwalk]
  simp [eraseExactRes, hdupe]

/-- Witness for C3: a single committed whole-key erase op under the
requested key. -/
theorem claim3_witness :
    findTxnWalk envEraseExact 1 7 [1] ⟨true, false, false⟩ .nil =
      .eraseExact eraseOpWhole false
    ∧ find_txn envEraseExact 1 7 .nil [1] ⟨true, false, false⟩ true =
      ⟨.keyNotFound, [1], false, none, .nil⟩ :=
  ⟨by decide,
   claim3_erase_exact_dupe0 envEraseExact 0 7 .nil [1] ⟨true, false, false⟩ true
     eraseOpWhole ⟨rfl, rfl⟩ (by decide) rfl⟩

/-- Dispatch lemma: a find_txn call whose walk ends in the approximate
post-walk state with an op reduces to postWalkMerge with the one-level
re-entry as the recursion argument. -/
theorem find_txn_postWalk_some (env : FindEnv) (n txn : Nat) (cur curW : CursorSt)
    (key txnkey : List Nat) (flags : FindFlags) (wantRecord : Bool) (op : Op)
    (eE : Bool)
    (hwalk : findTxnWalk env (n + 1) txn key flags cur =
      .postWalk (some (op, txnkey)) curW true eE) :
    find_txn env (n + 1) txn cur key flags wantRecord =
      postWalkMerge env (fun c k fl => find_txn env n txn c k fl wantRecord)
        curW key flags wantRecord op txnkey eE := by
  conv_lhs => unfold find_txn
  rw [hwalk]
  rfl

/-- C1: in the post-walk merge of find_txn (the overlay walk ended on a
visible Insert* op with the key flagged Approximate) with a direction
flag set and the B-tree lookup returning a candidate that is not taken by
the direct exact-match return, the B-tree side is chosen exactly when
compare(btree_key, txnkey) < 0 under GtMatch, resp. > 0 under LtMatch;
when the B-tree side is chosen, find_txn re-enters itself on the B-tree
key with ExactMatch added and, on success, the returned key carries the
Approximate flag; otherwise the overlay candidate is returned. -/
theorem claim1_find_txn_merge (env : FindEnv) (n txn : Nat) (cur curW : CursorSt)
    (key txnkey : List Nat) (flags : FindFlags) (wantRecord : Bool)
    (op : Op) (exactErased : Bool)
    (hdir : (flags.gt = true ∧ flags.lt = false) ∨ (flags.lt = true ∧ flags.gt = false))
    (hins : op.flags.insert = true ∨ op.flags.insertOverwrite = true ∨
      op.flags.insertDuplicate = true)
    (hwalk : findTxnWalk env (n + 1) txn key flags cur =
      .postWalk (some (op, txnkey)) curW true exactErased)
    (hbs : (env.bt.find key (stripExact flags exactErased)).status = .success)
    (hnd : ¬((env.bt.find key (stripExact flags exactErased)).approx = false ∧
      (stripExact flags exactErased).exact = true)) :
    find_txn env (n + 1) txn cur key flags wantRecord =
      if (flags.gt = true ∧
            env.bt.compare (env.bt.find key (stripExact flags exactErased)).key txnkey < 0)
          ∨ (flags.lt = true ∧
            env.bt.compare (env.bt.find key (stripExact flags exactErased)).key txnkey > 0) then
        (let r := find_txn env n txn (nilBtreeSide curW)
            (env.bt.find key (stripExact flags exactErased)).key
            { stripExact flags exactErased with exact := true } wantRecord
         if r.status = .success then { r with approx := true } else r)
      else
        ⟨.success, txnkey, true, if wantRecord then some op.record else none,
          .txnOp op txnkey⟩ := by
  have hgt : (stripExact flags exactErased).gt = flags.gt := by
    unfold stripExact; split <;> rfl
  have hlt : (stripExact flags exactErased).lt = flags.lt := by
    unfold stripExact; split <;> rfl
  have happrox : (!(env.bt.find key (stripExact flags exactErased)).approx
      && (stripExact flags exactErased).exact) = false := by
    cases ha : (env.bt.find key (stripExact flags exactErased)).approx
    · cases he : (stripExact flags exactErased).exact
      · simp
      · exact absurd ⟨ha, he⟩ hnd
    · simp
  rw [find_txn_postWalk_some env n txn cur curW key txnkey flags wantRecord op
    exactErased hwalk]
  simp only [postWalkMerge, hbs, happrox, hgt, hlt]
  rcases hdir with ⟨hg, hl⟩ | ⟨hl, hg⟩
  · by_cases hc : env.bt.compare (env.bt.find key (stripExact flags exactErased)).key txnkey < 0
    · simp [hg, hl, hc]
    · simp [hg, hl, hc]
  · by_cases hc : env.bt.compare (env.bt.find key (stripExact flags exactErased)).key txnkey > 0
    · simp [hg, hl, hc]
    · simp [hg, hl, hc]

/-- Witness for C1: key [1] is erased in the overlay with successor [2]
inserted; a GtMatch lookup of [1] ends the walk on the insert op with the
key approximate, the B-tree offers an approximate candidate [3], the
comparator answers 1 (so the B-tree side is farther), and the overlay
candidate [2] is returned with the Approximate flag. -/
theorem claim1_witness :
    findTxnWalk envMerge 2 7 [1] ⟨false, false, true⟩ .nil =
      .postWalk (some (insOpPlain, [2])) (.txnOp insOpPlain [2]) true true
    ∧ find_txn envMerge 2 7 .nil [1] ⟨false, false, true⟩ true =
      ⟨.success, [2], true, some [8], .txnOp insOpPlain [2]⟩ := by
  refine ⟨by decide, ?_⟩
  have h := claim1_find_txn_merge envMerge 1 7 .nil (.txnOp insOpPlain [2]) [1] [2]
    ⟨false, false, true⟩ true insOpPlain true
    (Or.inl ⟨rfl, rfl⟩) (Or.inl (by decide)) (by decide) (by decide) (by decide)
  exact h.trans (by decide)

/-- C10: cursor_erase on a nil cursor fails with CursorIsNil without
resolving a key or invoking erase_impl, so the database state is returned
unchanged whatever erase_impl would have done. -/
theorem claim10_cursor_erase_nil {α : Type}
    (eraseImpl : Option (List Nat) → Status × α) (db : α) :
    cursor_erase eraseImpl CursorSt.nil db = (.cursorIsNil, db) := rfl

end UpscaleDb
